import Mathlib

/-!
Verification of the lauth OpenID Connect provider against its specification.

The Go sources are shallowly embedded below.  Conventions used throughout:

* Go strings are Lean `String`s.
* `url.Values` (a bag of query parameters) is embedded as an association
  list `Values`; `url.Values.Encode`, which serialises the bag into a
  `k=v&...` string, is abstracted away: the query / fragment components of
  an embedded URL carry the bag itself, so theorems speak about parameter
  placement and contents directly.
* `*url.URL` pointers are `Option GoURL`; `nil` is `none`.
* Times are natural numbers counting seconds; `time.Now()` within one
  function body is modelled as a single instant passed as a parameter.
-/

namespace Lauth

/-- Embedding of Go `url.Values`: an association list from parameter name to
value.  Go's type is `map[string][]string`; the handlers here only ever use
`Set`, which keeps a single value per key, so one pair per key suffices. -/
abbrev Values := List (String × String)

/-- Embedding of `url.Values.Set`: replace any existing entry for the key
with the single given value. -/
def Values.set (vs : Values) (k v : String) : Values :=
  List.filter (fun p => p.1 ≠ k) vs ++ [(k, v)]

/-- Embedding of the parts of Go `net/url.URL` that `ErrorMessage.Redirect`
touches.  `rawQuery` and `fragment` hold the parameter bag (see module
comment).  -/
structure GoURL where
  scheme : String
  host : String
  path : String
  rawQuery : Values
  fragment : Values
deriving DecidableEq

/-- Embedding of `url.URL.IsAbs`: a URL is absolute iff its scheme is
non-empty. -/
def GoURL.isAbs (u : GoURL) : Bool := u.scheme ≠ ""

/-- Embedding of the check `u.String() == ""`: the serialisation of a URL is
the empty string exactly when every component is empty. -/
def GoURL.strEmpty (u : GoURL) : Bool :=
  u.scheme = "" && u.host = "" && u.path = "" &&
    List.isEmpty u.rawQuery && List.isEmpty u.fragment

/-- Embedding of `api.ErrorMessage`.  The wrapped Go `error` (`Err`) plays no
role in the rendered output and is omitted. -/
structure ErrorMessage where
  redirectURI : Option GoURL
  responseType : String
  state : String
  reason : String
  description : String
  errorURI : String
deriving DecidableEq

/-- Result of `ErrorMessage.Redirect`: either an HTML error page (no
Location header) or an HTTP redirect to the given location. -/
inductive RedirectResult where
  | htmlError (status : Nat)
  | redirect (status : Nat) (location : GoURL)
deriving DecidableEq

/-- Whether the rendered response carries a Location header. -/
def RedirectResult.hasLocation : RedirectResult → Bool
  | .htmlError _ => false
  | .redirect _ _ => true

/-- The parameter bag `resp` built inside `ErrorMessage.Redirect`: `state`
when non-empty, then `error`, then `error_description` when non-empty. -/
def ErrorMessage.respValues (msg : ErrorMessage) : Values :=
  let resp : Values := []
  let resp := if msg.state ≠ "" then resp.set "state" msg.state else resp
  let resp := resp.set "error" msg.reason
  if msg.description ≠ "" then resp.set "error_description" msg.description else resp

/-- Embedding of `ErrorMessage.Redirect`: render an HTML 400 page when there
is no usable absolute redirect URI; otherwise 302-redirect with the error
parameters in the fragment when the response type is neither `code` nor
empty, and in the query otherwise. -/
def ErrorMessage.redirect (msg : ErrorMessage) : RedirectResult :=
  match msg.redirectURI with
  | none => .htmlError 400
  | some u =>
    if u.strEmpty || !u.isAbs then .htmlError 400
    else if msg.responseType ≠ "code" && msg.responseType ≠ "" then
      .redirect 302 { u with fragment := msg.respValues }
    else
      .redirect 302 { u with rawQuery := msg.respValues }

/-- An HTTP response as produced by `ErrorMessage.JSON`: status code, the
response headers it sets beyond the JSON content type (none), and the
serialised message. -/
structure HTTPResponse where
  status : Nat
  headers : List (String × String)
  body : ErrorMessage
deriving DecidableEq

/-- Embedding of `ErrorMessage.JSON`: status 500 for `server_error`, 403 for
`invalid_token`, 400 otherwise; the message itself is the JSON body, and no
additional headers are set. -/
def ErrorMessage.json (msg : ErrorMessage) : HTTPResponse :=
  { status :=
      match msg.reason with
      | "server_error" => 500
      | "invalid_token" => 403
      | _ => 400,
    headers := [],
    body := msg }

/-- Modelled from the spec: the fail-fast conditions of the authorization
endpoint (§4.3 step 1) whose handler code is not part of the embedded
sources — `client_id` missing, client unknown, `redirect_uri` missing,
un-parseable, relative, or not registered for the client. -/
inductive PreCheckFailure where
  | missingClientID
  | unknownClient
  | missingRedirectURI
  | unparseableRedirectURI
  | relativeRedirectURI
  | unregisteredRedirectURI
deriving DecidableEq

/-- Modelled from the spec: the authorization handler reports fail-fast
failures as `invalid_request` carrying no redirect URI, except that a
syntactically valid but relative `redirect_uri` is carried as parsed (it is
then rejected by `ErrorMessage.Redirect`'s absoluteness check). -/
def failFastError (f : PreCheckFailure) (parsedRedirectURI : Option GoURL)
    (responseType state description : String) : ErrorMessage :=
  { redirectURI :=
      match f with
      | .relativeRedirectURI => parsedRedirectURI
      | _ => none,
    responseType := responseType,
    state := state,
    reason := "invalid_request",
    description := description,
    errorURI := "" }

/-- The authorization-request parameter names the request normaliser
compares between the outer query and the request object, in its reporting
order (taken from the expected error descriptions in `authz_test.go`). -/
def requestObjectKeys : List String :=
  ["response_type", "client_id", "redirect_uri", "scope", "state",
   "nonce", "max_age", "prompt", "login_hint"]

/-- Modelled from the spec: the keys that appear in both the outer
parameters and the request object with differing values. -/
def mismatchKeys (outer inner : String → Option String) : List String :=
  requestObjectKeys.filter fun k =>
    match outer k, inner k with
    | some a, some b => a ≠ b
    | _, _ => false

/-- Modelled from the spec: merge outer parameters with the request object;
request-object fields win only for fields absent outside. -/
def mergeParams (outer inner : String → Option String) : String → Option String :=
  fun k =>
    match outer k with
    | some v => some v
    | none => inner k

/-- Modelled from the spec: request-object handling after a successfully
verified request object — report `invalid_request_object` naming exactly
the mismatched keys when there are any, otherwise merge. -/
def normalizeRequestObject (outer inner : String → Option String) :
    Except String (String → Option String) :=
  if mismatchKeys outer inner = [] then
    .ok (mergeParams outer inner)
  else
    .error ("mismatch query parameter and request object: " ++
      String.intercalate ", " (mismatchKeys outer inner))

/-- The base64url alphabet used by Go's `base64.RawURLEncoding`. -/
def b64alphabet : List Char :=
  ['A', 'B', 'C', 'D', 'E', 'F', 'G', 'H', 'I', 'J', 'K', 'L', 'M',
   'N', 'O', 'P', 'Q', 'R', 'S', 'T', 'U', 'V', 'W', 'X', 'Y', 'Z',
   'a', 'b', 'c', 'd', 'e', 'f', 'g', 'h', 'i', 'j', 'k', 'l', 'm',
   'n', 'o', 'p', 'q', 'r', 's', 't', 'u', 'v', 'w', 'x', 'y', 'z',
   '0', '1', '2', '3', '4', '5', '6', '7', '8', '9', '-', '_']

/-- The character for a six-bit group. -/
def encChar (n : Nat) : Char := b64alphabet.getD n 'A'

/-- The six-bit group for a character (the inverse of `encChar` on the
alphabet); used to state the decode direction of the round trip. -/
def decChar (c : Char) : Nat := b64alphabet.indexOf c

/-- Base64url (unpadded) encoding of a byte sequence, processing three
bytes into four characters; one trailing byte yields two characters and two
trailing bytes yield three, with no padding — the behaviour of Go's
`base64.RawURLEncoding` encoder. -/
def b64encodeBytes : List Nat → List Char
  | [] => []
  | [a] => [encChar (a / 4), encChar (a % 4 * 16)]
  | [a, b] => [encChar (a / 4), encChar (a % 4 * 16 + b / 16), encChar (b % 16 * 4)]
  | a :: b :: c :: rest =>
      encChar (a / 4) :: encChar (a % 4 * 16 + b / 16) ::
        encChar (b % 16 * 4 + c / 64) :: encChar (c % 64) :: b64encodeBytes rest

/-- Base64url (unpadded) decoding back to bytes: four characters yield
three bytes, a trailing two or three characters yield one or two. -/
def b64decodeBytes : List Char → List Nat
  | [p, q] => [decChar p * 4 + decChar q / 16]
  | [p, q, r] =>
      [decChar p * 4 + decChar q / 16, decChar q % 16 * 16 + decChar r / 4]
  | p :: q :: r :: s :: rest =>
      (decChar p * 4 + decChar q / 16) ::
        (decChar q % 16 * 16 + decChar r / 4) ::
        (decChar r % 4 * 64 + decChar s) :: b64decodeBytes rest
  | _ => []

/-- Embedding of `bytes2base64`: stream the bytes through a
`base64.RawURLEncoding` encoder and collect the output. -/
def bytes2base64 (bs : List Nat) : String := String.mk (b64encodeBytes bs)

/-- Embedding of `binary.BigEndian.PutUint64`: the eight big-endian bytes
of a 64-bit value (each `byte(i >> k)` is `i / 2 ^ k % 256`). -/
def beBytes8 (i : Nat) : List Nat :=
  [i / 2 ^ 56 % 256, i / 2 ^ 48 % 256, i / 2 ^ 40 % 256, i / 2 ^ 32 % 256,
   i / 2 ^ 24 % 256, i / 2 ^ 16 % 256, i / 2 ^ 8 % 256, i % 256]

/-- Embedding of `int2base64`: write the value big-endian into eight bytes,
skip the leading zero bytes, and base64url-encode the remainder.  The Go
parameter is an `int`; the claims concern the non-negative range, on which
`uint64(i) = i`. -/
def int2base64 (i : Nat) : String :=
  bytes2base64 ((beBytes8 i).dropWhile (· == 0))

/-- Helper for `minBE`: base-256 digits computed with explicit fuel, so the
definition is structurally recursive; the fuel never runs out because a
number's digit count is at most the number itself. -/
def minBEAux : Nat → Nat → List Nat
  | 0, _ => []
  | fuel + 1, i => if i = 0 then [] else minBEAux fuel (i / 256) ++ [i % 256]

/-- The minimal big-endian byte representation of a natural number: base-256
digits with no leading zero byte; the empty list for zero.  This is also
how Go's `big.Int.Bytes` renders a non-negative integer. -/
def minBE (i : Nat) : List Nat := minBEAux i i

/-- Big-endian bytes of a value, `n` bytes wide (with leading zeros). -/
def beBytesN : Nat → Nat → List Nat
  | 0, _ => []
  | n + 1, i => beBytesN n (i / 256) ++ [i % 256]

/-- Reading a big-endian byte sequence back as a natural number. -/
def beDecode (bs : List Nat) : Nat := bs.foldl (fun a b => a * 256 + b) 0

/-- An X.509 certificate as far as the spec's claims observe it; DER
encoding and the signature are abstracted away. -/
structure Certificate where
  subjectCN : String
  issuerCN : String
  serialNumber : Int
  notBefore : Nat
  notAfter : Nat
deriving DecidableEq

/-- The certificate template fields set by `makeCert`. -/
structure CertTemplate where
  subjectCN : String
  serialNumber : Int
  notBefore : Nat
  notAfter : Nat
deriving DecidableEq

/-- Embedding of `x509.CreateCertificate(rand, template, parent, pub, priv)`:
subject, serial number and validity come from the template, the issuer from
the parent; passing the same record twice produces a self-signed
certificate. -/
def createCertificate (template parent : CertTemplate) : Certificate :=
  { subjectCN := template.subjectCN,
    issuerCN := parent.subjectCN,
    serialNumber := template.serialNumber,
    notBefore := template.notBefore,
    notAfter := template.notAfter }

/-- Embedding of `makeCert`: build a template with the hostname as common
name, serial number 0 and a one-hour validity starting now (both
`time.Now()` calls are modelled as the same instant `now`, in seconds), and
self-sign it. -/
def makeCert (hostname : String) (now : Nat) : Certificate :=
  let template : CertTemplate :=
    { subjectCN := hostname,
      serialNumber := 0,
      notBefore := now,
      notAfter := now + 3600 }
  createCertificate template template

/-- Embedding of `token.Manager` as far as `JWKs` observes it: the key ID
(Go computes it by hashing the modulus; abstracted as a stored value) and
the RSA public key, whose modulus `big.Int` is carried as a natural
number (its `Bytes()` is `minBE`). -/
structure Manager where
  keyID : String
  publicN : Nat
  publicE : Nat

/-- Embedding of `token.JWK`. -/
structure JWK where
  keyID : String
  use : String
  algorithm : String
  keyType : String
  e : String
  n : String
  x509 : List Certificate
deriving DecidableEq

/-- Embedding of `Manager.JWKs`: a single JWK for the manager's RSA public
key together with a freshly self-signed certificate.  The only error path
in the Go code is certificate creation, which is external randomness and
always succeeds in the model. -/
def Manager.JWKs (m : Manager) (hostname : String) (now : Nat) : List JWK :=
  [{ keyID := m.keyID,
     use := "sig",
     algorithm := "RS256",
     keyType := "RSA",
     e := int2base64 m.publicE,
     n := bytes2base64 (minBE m.publicN),
     x509 := [makeCert hostname now] }]

/-- Embedding of the parts of `url.URL` that `DecideListenAddress` reads:
`Scheme`, and the result of `Port()` (empty when the issuer URL carries no
explicit port). -/
structure NetURL where
  scheme : String
  port : String
deriving DecidableEq

/-- Embedding of `DecideListenAddress`.  The `*net.TCPAddr` listen flag is
carried as `Option String` holding its `String()` rendering; `nil` is
`none`. -/
def DecideListenAddress (issuer : NetURL) (listen : Option String) : String :=
  match listen with
  | some l => l
  | none =>
      if issuer.port ≠ "" then ":" ++ issuer.port
      else if issuer.scheme = "https" then ":443"
      else ":80"

/-! ## Lemmas about the base-256 and base64url codecs -/

theorem minBEAux_congr : ∀ f g i : Nat, i ≤ f → i ≤ g → minBEAux f i = minBEAux g i := by
  intro f
  induction f with
  | zero =>
    intro g i hf _
    interval_cases i
    cases g <;> simp [minBEAux]
  | succ n ih =>
    intro g i hf hg
    match g with
    | 0 =>
      interval_cases i
      simp [minBEAux]
    | g + 1 =>
      by_cases hi : i = 0
      · simp [minBEAux, hi]
      · have hlt : i / 256 < i := Nat.div_lt_self (Nat.pos_of_ne_zero hi) (by norm_num)
        simp only [minBEAux, if_neg hi]
        rw [ih g (i / 256) (by omega) (by omega)]

/-- The recurrence satisfied by `minBE`. -/
theorem minBE_eq (i : Nat) :
    minBE i = if i = 0 then [] else minBE (i / 256) ++ [i % 256] := by
  by_cases hi : i = 0
  · subst hi; rfl
  · rw [if_neg hi]
    unfold minBE
    match i, hi with
    | k + 1, hi =>
      simp only [minBEAux, if_neg hi]
      congr 1
      have hlt : (k + 1) / 256 < k + 1 := Nat.div_lt_self (by omega) (by norm_num)
      exact minBEAux_congr k ((k + 1) / 256) ((k + 1) / 256) (by omega) (le_refl _)

/-- Every byte of the minimal big-endian representation is a byte. -/
theorem minBE_bytes_lt (i : Nat) : ∀ b ∈ minBE i, b < 256 := by
  induction i using Nat.strong_induction_on with
  | _ i ih =>
    intro b hb
    rw [minBE_eq] at hb
    by_cases hi : i = 0
    · simp [hi] at hb
    · rw [if_neg hi] at hb
      rcases List.mem_append.mp hb with h | h
      · exact ih (i / 256) (Nat.div_lt_self (Nat.pos_of_ne_zero hi) (by norm_num)) b h
      · simp at h
        omega

/-- The minimal big-endian representation of a positive number has a
non-zero leading byte. -/
theorem minBE_head_ne_zero (i : Nat) (hi : i ≠ 0) :
    ∃ h t, minBE i = h :: t ∧ h ≠ 0 := by
  induction i using Nat.strong_induction_on with
  | _ i ih =>
    rw [minBE_eq, if_neg hi]
    by_cases h256 : i / 256 = 0
    · refine ⟨i % 256, [], ?_, ?_⟩
      · rw [minBE_eq, if_pos h256]
        rfl
      · omega
    · obtain ⟨h, t, heq, hne⟩ :=
        ih (i / 256) (Nat.div_lt_self (Nat.pos_of_ne_zero hi) (by norm_num)) h256
      exact ⟨h, t ++ [i % 256], by rw [heq]; rfl, hne⟩

/-- Reading the minimal big-endian representation back yields the number. -/
theorem beDecode_minBE (i : Nat) : beDecode (minBE i) = i := by
  induction i using Nat.strong_induction_on with
  | _ i ih =>
    by_cases hi : i = 0
    · subst hi; rfl
    · rw [minBE_eq, if_neg hi]
      unfold beDecode
      rw [List.foldl_append]
      have hrec := ih (i / 256) (Nat.div_lt_self (Nat.pos_of_ne_zero hi) (by norm_num))
      unfold beDecode at hrec
      rw [hrec]
      simp [List.foldl]
      omega

theorem beBytesN_eq (n : Nat) :
    ∀ i : Nat, i < 256 ^ n →
      beBytesN n i = List.replicate (n - (minBE i).length) 0 ++ minBE i := by
  induction n with
  | zero =>
    intro i hi
    interval_cases i
    simp [beBytesN, minBE, minBEAux]
  | succ n ih =>
    intro i hi
    by_cases hzero : i = 0
    · subst hzero
      have h0 : minBE 0 = [] := rfl
      have hdiv : (0 : Nat) / 256 = 0 := rfl
      simp only [beBytesN, hdiv, h0, List.length_nil, Nat.sub_zero, List.append_nil]
      rw [ih 0 (Nat.pos_pow_of_pos n (by norm_num)), h0]
      simp [List.replicate_succ', Nat.zero_mod]
    · have hdivlt : i / 256 < 256 ^ n := by
        rw [Nat.div_lt_iff_lt_mul (by norm_num : (0 : Nat) < 256)]
        calc i < 256 ^ (n + 1) := hi
        _ = 256 ^ n * 256 := by ring
      have hrec := ih (i / 256) hdivlt
      have hmin : minBE i = minBE (i / 256) ++ [i % 256] := by
        rw [minBE_eq, if_neg hzero]
      simp only [beBytesN, hrec, hmin, List.length_append, List.length_cons,
        List.length_nil]
      rw [List.append_assoc]
      congr 2
      omega

/-- `PutUint64` is the 8-byte big-endian encoding. -/
theorem beBytes8_eq (i : Nat) : beBytes8 i = beBytesN 8 i := by
  simp only [beBytes8, beBytesN, Nat.div_div_eq_div_mul]
  norm_num

theorem dropWhile_zero_replicate (k : Nat) (l : List Nat) :
    List.dropWhile (· == 0) (List.replicate k 0 ++ l) = List.dropWhile (· == 0) l := by
  induction k with
  | zero => rfl
  | succ n ih => simp [List.replicate_succ, List.dropWhile, ih]

theorem dropWhile_zero_minBE (i : Nat) :
    List.dropWhile (· == 0) (minBE i) = minBE i := by
  by_cases hi : i = 0
  · subst hi; rfl
  · obtain ⟨h, t, heq, hne⟩ := minBE_head_ne_zero i hi
    have hfalse : (h == 0) = false := by simpa using hne
    rw [heq]
    simp [List.dropWhile, hfalse]

/-- Stripping leading zero bytes from the fixed 8-byte big-endian encoding
leaves exactly the minimal big-endian representation. -/
theorem int2base64_eq_minBE (i : Nat) (h : i < 2 ^ 64) :
    int2base64 i = String.mk (b64encodeBytes (minBE i)) := by
  unfold int2base64 bytes2base64
  congr 1
  rw [beBytes8_eq, beBytesN_eq 8 i (by norm_num; omega),
    dropWhile_zero_replicate, dropWhile_zero_minBE]

/-- Decoding a base64url character produced from a six-bit group recovers
the group. -/
theorem decChar_encChar : ∀ s : Nat, s < 64 → decChar (encChar s) = s := by
  decide

/-- Base64url decoding inverts base64url encoding on byte sequences. -/
theorem b64_roundtrip (bs : List Nat) (h : ∀ b ∈ bs, b < 256) :
    b64decodeBytes (b64encodeBytes bs) = bs := by
  match bs with
  | [] => rfl
  | [a] =>
    have ha : a < 256 := h a (by simp)
    have h1 := decChar_encChar (a / 4) (by omega)
    have h2 := decChar_encChar (a % 4 * 16) (by omega)
    simp only [b64encodeBytes, b64decodeBytes, h1, h2]
    congr 1
    omega
  | [a, b] =>
    have ha : a < 256 := h a (by simp)
    have hb : b < 256 := h b (by simp)
    have h1 := decChar_encChar (a / 4) (by omega)
    have h2 := decChar_encChar (a % 4 * 16 + b / 16) (by omega)
    have h3 := decChar_encChar (b % 16 * 4) (by omega)
    simp only [b64encodeBytes, b64decodeBytes, h1, h2, h3]
    have e1 : a / 4 * 4 + (a % 4 * 16 + b / 16) / 16 = a := by omega
    have e2 : (a % 4 * 16 + b / 16) % 16 * 16 + b % 16 * 4 / 4 = b := by omega
    rw [e1, e2]
  | a :: b :: c :: rest =>
    have ha : a < 256 := h a (by simp)
    have hb : b < 256 := h b (by simp)
    have hc : c < 256 := h c (by simp)
    have ih := b64_roundtrip rest (fun x hx => h x (by simp [hx]))
    have h1 := decChar_encChar (a / 4) (by omega)
    have h2 := decChar_encChar (a % 4 * 16 + b / 16) (by omega)
    have h3 := decChar_encChar (b % 16 * 4 + c / 64) (by omega)
    have h4 := decChar_encChar (c % 64) (by omega)
    simp only [b64encodeBytes, b64decodeBytes, h1, h2, h3, h4, ih]
    have e1 : a / 4 * 4 + (a % 4 * 16 + b / 16) / 16 = a := by omega
    have e2 : (a % 4 * 16 + b / 16) % 16 * 16 + (b % 16 * 4 + c / 64) / 4 = b := by
      omega
    have e3 : (b % 16 * 4 + c / 64) % 4 * 64 + c % 64 = c := by omega
    rw [e1, e2, e3]

/-- C10: for every non-negative integer representable in 63 bits,
`int2base64` produces the unpadded base64url encoding of the minimal
big-endian byte representation (leading zero bytes stripped); decoding the
characters back to bytes and reading them big-endian recovers the integer,
and `int2base64 0` is the empty string. -/
theorem int2base64_spec (i : Nat) (h : i < 2 ^ 63) :
    int2base64 i = String.mk (b64encodeBytes (minBE i)) ∧
    b64decodeBytes (b64encodeBytes (minBE i)) = minBE i ∧
    beDecode (b64decodeBytes (b64encodeBytes (minBE i))) = i ∧
    int2base64 0 = "" := by
  have hround := b64_roundtrip (minBE i) (minBE_bytes_lt i)
  refine ⟨int2base64_eq_minBE i (lt_trans h (by norm_num)), hround, ?_, rfl⟩
  rw [hround]
  exact beDecode_minBE i

/-- Witness for C10 at `i = 65537` (the standard RSA exponent, whose
encoding is the well-known `AQAB`). -/
theorem int2base64_spec_witness :
    65537 < 2 ^ 63 ∧
    (int2base64 65537 = String.mk (b64encodeBytes (minBE 65537)) ∧
      b64decodeBytes (b64encodeBytes (minBE 65537)) = minBE 65537 ∧
      beDecode (b64decodeBytes (b64encodeBytes (minBE 65537))) = 65537 ∧
      int2base64 0 = "") ∧
    int2base64 65537 = "AQAB" := by
  refine ⟨by norm_num, int2base64_spec 65537 (by norm_num), by decide⟩

/-! ## The JWK set and its certificate -/

/-- C8: the certificate minted for the JWK set is self-signed (its issuer
equals its subject), carries the hostname as common name, and is valid for
exactly one hour from its `NotBefore` time. -/
theorem makeCert_spec (hostname : String) (now : Nat) :
    (makeCert hostname now).issuerCN = (makeCert hostname now).subjectCN ∧
    (makeCert hostname now).subjectCN = hostname ∧
    (makeCert hostname now).notAfter = (makeCert hostname now).notBefore + 3600 :=
  ⟨rfl, rfl, rfl⟩

/-- C7: on success `JWKs` returns exactly one JWK, whose fields are the
manager's key ID, `use = sig`, `alg = RS256`, `kty = RSA`, the base64url
encodings of the public exponent and of the modulus bytes, and an `x5c`
holding a single certificate. -/
theorem jwks_single_key_spec (m : Manager) (hostname : String) (now : Nat)
    (h : m.publicE < 2 ^ 63) :
    m.JWKs hostname now =
      [{ keyID := m.keyID,
         use := "sig",
         algorithm := "RS256",
         keyType := "RSA",
         e := String.mk (b64encodeBytes (minBE m.publicE)),
         n := String.mk (b64encodeBytes (minBE m.publicN)),
         x509 := [makeCert hostname now] }] ∧
    (m.JWKs hostname now).length = 1 := by
  refine ⟨?_, rfl⟩
  unfold Manager.JWKs
  rw [int2base64_eq_minBE m.publicE (lt_trans h (by norm_num))]
  rfl

/-- Witness for C7 at a concrete manager. -/
theorem jwks_single_key_spec_witness :
    65537 < 2 ^ 63 ∧
    ((Manager.mk "testkey" 258 65537).JWKs "issuer.example.com" 0 =
      [{ keyID := "testkey",
         use := "sig",
         algorithm := "RS256",
         keyType := "RSA",
         e := String.mk (b64encodeBytes (minBE 65537)),
         n := String.mk (b64encodeBytes (minBE 258)),
         x509 := [makeCert "issuer.example.com" 0] }] ∧
      ((Manager.mk "testkey" 258 65537).JWKs "issuer.example.com" 0).length = 1) :=
  ⟨by norm_num,
    jwks_single_key_spec (Manager.mk "testkey" 258 65537) "issuer.example.com" 0
      (by norm_num)⟩

/-! ## The listen address -/

/-- C9: `DecideListenAddress` returns the configured listen address when one
is present; otherwise `":<port>"` when the issuer URL carries an explicit
port; otherwise `":443"` for an https issuer and `":80"` for any other
scheme. -/
theorem DecideListenAddress_spec (issuer : NetURL) (listen : Option String) :
    (∀ l, listen = some l → DecideListenAddress issuer listen = l) ∧
    (listen = none → issuer.port ≠ "" →
      DecideListenAddress issuer listen = ":" ++ issuer.port) ∧
    (listen = none → issuer.port = "" → issuer.scheme = "https" →
      DecideListenAddress issuer listen = ":443") ∧
    (listen = none → issuer.port = "" → issuer.scheme ≠ "https" →
      DecideListenAddress issuer listen = ":80") := by
  refine ⟨?_, ?_, ?_, ?_⟩
  · intro l hl
    subst hl
    rfl
  · intro hn hp
    subst hn
    simp [DecideListenAddress, hp]
  · intro hn hp hs
    subst hn
    simp [DecideListenAddress, hp, hs]
  · intro hn hp hs
    subst hn
    simp [DecideListenAddress, hp, hs]

/-- Witness for C9: an http issuer without explicit port listens on ":80". -/
theorem DecideListenAddress_spec_witness :
    DecideListenAddress (NetURL.mk "http" "") none = ":80" :=
  (DecideListenAddress_spec (NetURL.mk "http" "") none).2.2.2 rfl rfl (by decide)

/-! ## JSON error responses -/

/-- C5: the status of a JSON error response is determined by the error kind
alone — 403 for `invalid_token`, 500 for `server_error`, 400 for every
other kind. -/
theorem json_status_by_reason (msg : ErrorMessage) :
    (msg.reason = "invalid_token" → (msg.json).status = 403) ∧
    (msg.reason = "server_error" → (msg.json).status = 500) ∧
    (msg.reason ≠ "invalid_token" → msg.reason ≠ "server_error" →
      (msg.json).status = 400) := by
  refine ⟨?_, ?_, ?_⟩
  · intro h
    simp only [ErrorMessage.json, h]
  · intro h
    simp only [ErrorMessage.json, h]
  · intro h1 h2
    simp only [ErrorMessage.json]

/-- Witness for C5 at an `invalid_token` error. -/
theorem json_status_by_reason_witness :
    (ErrorMessage.mk none "" "" "invalid_token" "token is expired" "").json.status
      = 403 :=
  (json_status_by_reason (ErrorMessage.mk none "" "" "invalid_token" "token is expired" "")).1 rfl

/-- A concrete client-authentication failure at the token endpoint. -/
def invalidClientMsg : ErrorMessage :=
  { redirectURI := none,
    responseType := "",
    state := "",
    reason := "invalid_client",
    description := "client authentication failed",
    errorURI := "" }

/-- C4 counterexample: a client-authentication failure is serialised by
`ErrorMessage.JSON` with status 400 (the default branch), not 401, and no
`WWW-Authenticate` header is set. -/
theorem invalidClient_json_status_400 :
    (invalidClientMsg.json).status = 400 ∧
    (invalidClientMsg.json).status ≠ 401 ∧
    (invalidClientMsg.json).headers = [] := by
  refine ⟨rfl, by decide, rfl⟩

/-- C4 (amended): whenever client authentication at the token endpoint
fails, the JSON error response carries `error = invalid_client`, but with
HTTP status 400 (`ErrorMessage.JSON` has no 401 branch) and with no
`WWW-Authenticate` response header. -/
theorem invalidClient_json_spec (msg : ErrorMessage)
    (h : msg.reason = "invalid_client") :
    (msg.json).status = 400 ∧
    (msg.json).headers = [] ∧
    (msg.json).body.reason = "invalid_client" := by
  refine ⟨?_, rfl, h⟩
  simp only [ErrorMessage.json, h]
  decide

/-- Witness for the amended C4. -/
theorem invalidClient_json_spec_witness :
    invalidClientMsg.reason = "invalid_client" ∧
    ((invalidClientMsg.json).status = 400 ∧
      (invalidClientMsg.json).headers = [] ∧
      (invalidClientMsg.json).body.reason = "invalid_client") :=
  ⟨rfl, invalidClient_json_spec invalidClientMsg rfl⟩

/-! ## Error redirects -/

/-- Once the redirect URI has been validated, `Redirect` issues a 302 whose
parameter bag lands in the fragment for a response type other than `code`
and the empty string, and in the query otherwise. -/
theorem redirect_eq_of_valid (msg : ErrorMessage) (u : GoURL)
    (h1 : msg.redirectURI = some u) (h2 : u.strEmpty = false)
    (h3 : u.isAbs = true) :
    msg.redirect =
      if msg.responseType ≠ "code" && msg.responseType ≠ "" then
        .redirect 302 { u with fragment := msg.respValues }
      else
        .redirect 302 { u with rawQuery := msg.respValues } := by
  unfold ErrorMessage.redirect
  rw [h1]
  simp [h2, h3]

/-- A URL shaped like the registered callback of the tests. -/
def sampleCallbackURL : GoURL :=
  { scheme := "http",
    host := "some-client.example.com",
    path := "/callback",
    rawQuery := [],
    fragment := [] }

/-- The error produced for a request that omits `response_type`. -/
def missingResponseTypeMsg : ErrorMessage :=
  { redirectURI := some sampleCallbackURL,
    responseType := "",
    state := "",
    reason := "unsupported_response_type",
    description := "response_type is required",
    errorURI := "" }

/-- C1 counterexample: for an empty (missing) `response_type` — a non-code
value — the error parameters are placed in the query, not the fragment, so
"query iff response_type is exactly code" fails. -/
theorem errorRedirect_empty_responseType_query :
    missingResponseTypeMsg.responseType ≠ "code" ∧
    missingResponseTypeMsg.redirect =
      .redirect 302
        { sampleCallbackURL with rawQuery := missingResponseTypeMsg.respValues } ∧
    ({ sampleCallbackURL with
        rawQuery := missingResponseTypeMsg.respValues } : GoURL).fragment = [] := by
  refine ⟨by decide, by decide, rfl⟩

/-- C1 (amended): for every error reported after the redirect URI has been
validated, the error parameters are encoded into the query component iff
the response type is exactly `code` or is empty (absent), and into the
fragment component for every other response type. -/
theorem errorRedirect_placement (msg : ErrorMessage) (u : GoURL)
    (h1 : msg.redirectURI = some u) (h2 : u.strEmpty = false)
    (h3 : u.isAbs = true) :
    msg.redirect =
      if msg.responseType = "code" ∨ msg.responseType = "" then
        .redirect 302 { u with rawQuery := msg.respValues }
      else
        .redirect 302 { u with fragment := msg.respValues } := by
  rw [redirect_eq_of_valid msg u h1 h2 h3]
  by_cases hc : msg.responseType = "code" ∨ msg.responseType = ""
  · rcases hc with h | h <;> simp [h]
  · push_neg at hc
    simp [hc.1, hc.2]

/-- Witness for the amended C1: a `code`-flow error redirect carries the
parameters in the query. -/
theorem errorRedirect_placement_witness :
    ({ missingResponseTypeMsg with responseType := "code" } : ErrorMessage).redirect =
      .redirect 302
        { sampleCallbackURL with
            rawQuery :=
              ({ missingResponseTypeMsg with
                  responseType := "code" } : ErrorMessage).respValues } := by
  have h := errorRedirect_placement
    { missingResponseTypeMsg with responseType := "code" } sampleCallbackURL
    rfl rfl rfl
  simpa using h

/-- C2: whenever the fail-fast checks reject the request (missing
`client_id`, unknown client, missing / un-parseable / relative /
unregistered `redirect_uri`), the error renders as an HTML page with
status 400 and carries no Location header. -/
theorem failFast_renders_html400 (f : PreCheckFailure) (u : Option GoURL)
    (rt st d : String)
    (h : ∀ v, u = some v → v.isAbs = false) :
    (failFastError f u rt st d).redirect = .htmlError 400 ∧
    ((failFastError f u rt st d).redirect).hasLocation = false := by
  have hmain : (failFastError f u rt st d).redirect = .htmlError 400 := by
    cases f <;> simp only [failFastError, ErrorMessage.redirect]
    case relativeRedirectURI =>
      match u with
      | none => rfl
      | some v =>
        have hv := h v rfl
        simp [hv]
  exact ⟨hmain, by rw [hmain]; rfl⟩

/-- A relative redirect URI as `url.Parse` yields it for the test input
`/invalid/relative/url`. -/
def relativeURL : GoURL :=
  { scheme := "",
    host := "",
    path := "/invalid/relative/url",
    rawQuery := [],
    fragment := [] }

/-- Witness for C2 at a relative redirect URI. -/
theorem failFast_renders_html400_witness :
    (failFastError .relativeRedirectURI (some relativeURL) "code" ""
        "redirect_uri is not absolute").redirect = .htmlError 400 ∧
    ((failFastError .relativeRedirectURI (some relativeURL) "code" ""
        "redirect_uri is not absolute").redirect).hasLocation = false :=
  failFast_renders_html400 .relativeRedirectURI (some relativeURL) "code" ""
    "redirect_uri is not absolute"
    (by intro v hv; cases hv; rfl)

/-- The `state` entry of the parameter bag built by `Redirect`. -/
theorem respValues_state (msg : ErrorMessage) :
    List.lookup "state" msg.respValues =
      (if msg.state = "" then none else some msg.state) ∧
    List.countP (fun p => p.1 == "state") msg.respValues =
      (if msg.state = "" then 0 else 1) := by
  by_cases hs : msg.state = "" <;> by_cases hd : msg.description = "" <;>
    simp [ErrorMessage.respValues, Values.set, hs, hd, List.lookup, List.countP,
      List.countP.go]

/-- C6: for every error redirect, the `state` parameter appears in the
encoded parameters iff a non-empty state was supplied, with its value
unchanged (and it appears exactly once). -/
theorem errorRedirect_state_preserved (msg : ErrorMessage) (u : GoURL)
    (h1 : msg.redirectURI = some u) (h2 : u.strEmpty = false)
    (h3 : u.isAbs = true) :
    (msg.redirect = .redirect 302 { u with rawQuery := msg.respValues } ∨
      msg.redirect = .redirect 302 { u with fragment := msg.respValues }) ∧
    List.lookup "state" msg.respValues =
      (if msg.state = "" then none else some msg.state) ∧
    List.countP (fun p => p.1 == "state") msg.respValues =
      (if msg.state = "" then 0 else 1) := by
  refine ⟨?_, (respValues_state msg).1, (respValues_state msg).2⟩
  rw [redirect_eq_of_valid msg u h1 h2 h3]
  by_cases hc : msg.responseType ≠ "code" && msg.responseType ≠ ""
  · right
    rw [if_pos hc]
  · left
    rw [if_neg hc]

/-- Witness for C6: a redirect with state `xyz` carries it unchanged. -/
theorem errorRedirect_state_preserved_witness :
    ((({ missingResponseTypeMsg with state := "xyz" } : ErrorMessage).redirect =
        .redirect 302
          { sampleCallbackURL with
              rawQuery :=
                ({ missingResponseTypeMsg with state := "xyz" } : ErrorMessage).respValues } ∨
      ({ missingResponseTypeMsg with state := "xyz" } : ErrorMessage).redirect =
        .redirect 302
          { sampleCallbackURL with
              fragment :=
                ({ missingResponseTypeMsg with state := "xyz" } : ErrorMessage).respValues }) ∧
      List.lookup "state"
          ({ missingResponseTypeMsg with state := "xyz" } : ErrorMessage).respValues =
        (if ({ missingResponseTypeMsg with state := "xyz" } : ErrorMessage).state = ""
          then none else some "xyz") ∧
      List.countP (fun p => p.1 == "state")
          ({ missingResponseTypeMsg with state := "xyz" } : ErrorMessage).respValues =
        (if ({ missingResponseTypeMsg with state := "xyz" } : ErrorMessage).state = ""
          then 0 else 1)) := by
  have h := errorRedirect_state_preserved
    { missingResponseTypeMsg with state := "xyz" } sampleCallbackURL rfl rfl rfl
  simpa using h

/-! ## Request-object merging -/

/-- C3: the reported mismatch set is exactly the keys present on both sides
with differing values; keys absent on one side are never reported; with no
mismatch, no error is raised and the merge takes the request-object value
for every field absent outside. -/
theorem requestObject_mismatch_spec (outer inner : String → Option String)
    (k : String) :
    (k ∈ mismatchKeys outer inner ↔
      (k ∈ requestObjectKeys ∧
        ∃ a b, outer k = some a ∧ inner k = some b ∧ a ≠ b)) ∧
    (mismatchKeys outer inner = [] →
      normalizeRequestObject outer inner = .ok (mergeParams outer inner) ∧
      (outer k = none → mergeParams outer inner k = inner k)) ∧
    (mismatchKeys outer inner ≠ [] →
      normalizeRequestObject outer inner =
        .error ("mismatch query parameter and request object: " ++
          String.intercalate ", " (mismatchKeys outer inner))) := by
  refine ⟨?_, ?_, ?_⟩
  · rw [mismatchKeys, List.mem_filter]
    refine and_congr_right fun _ => ?_
    cases houter : outer k <;> cases hinner : inner k <;> simp
  · intro hempty
    refine ⟨by rw [normalizeRequestObject, if_pos hempty], fun ho => ?_⟩
    rw [mergeParams, ho]
  · intro hne
    rw [normalizeRequestObject, if_neg hne]

/-- The outer query parameters of the mismatch test case in
`authz_test.go`. -/
def testOuterParams : String → Option String := fun k =>
  List.lookup k
    [("response_type", "code"), ("client_id", "some_client_id"),
     ("redirect_uri", "http://some-client.example.com/callback"),
     ("scope", "openid profile"), ("state", "this is state"),
     ("nonce", "this is nonce"), ("max_age", "123"), ("prompt", "login"),
     ("login_hint", "macrat")]

/-- The request-object claims of the same test case. -/
def testRequestObjectParams : String → Option String := fun k =>
  List.lookup k
    [("client_id", "another_client_id"), ("response_type", "token"),
     ("redirect_uri", "http://another-client.example.com/callback"),
     ("scope", "openid profile email"), ("state", "this is another state"),
     ("nonce", "this is nonce"), ("max_age", "123"), ("prompt", "login"),
     ("login_hint", "macrat")]

/-- An outer request with no parameters at all. -/
def emptyOuterParams : String → Option String := fun _ => none

/-- Witness for C3 on the test vectors: the mismatch error names exactly the
keys the test expects, and with an empty outer request the merge takes the
request-object values. -/
theorem requestObject_mismatch_spec_witness :
    ("response_type" ∈ mismatchKeys testOuterParams testRequestObjectParams ↔
      ("response_type" ∈ requestObjectKeys ∧
        ∃ a b, testOuterParams "response_type" = some a ∧
          testRequestObjectParams "response_type" = some b ∧ a ≠ b)) ∧
    normalizeRequestObject testOuterParams testRequestObjectParams =
      .error
        "mismatch query parameter and request object: response_type, client_id, redirect_uri, scope, state" ∧
    normalizeRequestObject emptyOuterParams testRequestObjectParams =
      .ok (mergeParams emptyOuterParams testRequestObjectParams) ∧
    mergeParams emptyOuterParams testRequestObjectParams "scope" =
      testRequestObjectParams "scope" := by
  have h1 := requestObject_mismatch_spec testOuterParams testRequestObjectParams
    "response_type"
  have h2 := requestObject_mismatch_spec emptyOuterParams testRequestObjectParams
    "scope"
  refine ⟨h1.1, ?_, (h2.2.1 (by decide)).1, (h2.2.1 (by decide)).2 rfl⟩
  have herr := h1.2.2 (by decide)
  rw [herr]
  congr 1

end Lauth
